import Mathlib

/-!
Verification of the runtime value representation of rslox
(`src/rslox/compiled/value.rs`): the tagged-union `Value` type, its
predicates, stringification, equality, the upvalue indirection
mechanism (`UpvaluePtr` / `OpenUpvalue`), `update_number`, and the
fallible coercion layer (`TryFrom` impls).

Modelling choices (shallow embedding):
* Heap references (`GcWeakMut<Value>`, `RcRc<Value>`) are modelled as
  `Nat` addresses into an explicit heap `List Value`.  A weak upgrade
  is a lookup `h[a]?`; `none` models the `unwrap_upgrade` panic on a
  reclaimed referent.  `GcWeak<Function>` is an index into a separate
  function store `List Function`.
* Recursion through indirection (`stringify`, `update_number`,
  `TryFrom<&Value> for f64`) is fuel-indexed; a `none` result models
  non-termination / panic, and theorems supply sufficient fuel.
* `f64` is modelled as `F64`: NaN, the two infinities, and finite
  values as exact rationals.  IEEE-754 equality becomes: NaN is equal
  to nothing (itself included); finite values compare by value.
* Fatal paths (`assert!`, panics) are modelled as `none` of `Option`;
  recoverable coercion failures keep the source's `Result` shape as
  `Except String`.
-/

/-- Model of Rust `f64`: NaN, infinities, and finite values as exact
rationals (the binary representation is abstracted). -/
inductive F64 where
  | nan : F64
  | inf : F64
  | negInf : F64
  | fin : Rat → F64
deriving DecidableEq

/-- IEEE-754 equality on the `F64` model: NaN compares unequal to
everything (itself included); finite values compare by value. -/
def F64.beq : F64 → F64 → Bool
  | F64.fin a, F64.fin b => a == b
  | F64.inf, F64.inf => true
  | F64.negInf, F64.negInf => true
  | _, _ => false

/-- Decimal digits of the fractional part `r / d` (`0 ≤ r < d`),
fuel-bounded. -/
def fracDigits : Nat → Nat → Nat → List Char
  | 0, _, _ => []
  | _ + 1, 0, _ => []
  | fuel + 1, r, d => Nat.digitChar (r * 10 / d) :: fracDigits fuel (r * 10 % d) d

/-- Rust `Display` for `f64` (`f.to_string()`): integral values print
with no decimal point (`3.0` prints as `"3"`), finite non-integral
values print their decimal expansion. -/
def F64.displayString : F64 → String
  | F64.nan => "NaN"
  | F64.inf => "inf"
  | F64.negInf => "-inf"
  | F64.fin q =>
    let sign := if q < 0 then "-" else ""
    let n := q.num.natAbs
    let d := q.den
    if n % d == 0 then sign ++ toString (n / d)
    else sign ++ toString (n / d) ++ "." ++ String.mk (fracDigits 60 (n % d) d)

/-- Rust `Debug` for `f64` (`{:?}`): like `Display` except integral
values keep a trailing `.0` (`3.0` prints as `"3.0"`). -/
def F64.debugString : F64 → String
  | F64.nan => "NaN"
  | F64.inf => "inf"
  | F64.negInf => "-inf"
  | F64.fin q =>
    let sign := if q < 0 then "-" else ""
    let n := q.num.natAbs
    let d := q.den
    if n % d == 0 then sign ++ toString (n / d) ++ ".0"
    else sign ++ toString (n / d) ++ "." ++ String.mk (fracDigits 60 (n % d) d)

/-- Modelled from the spec: `InternedString` (defined in `chunk.rs`,
not under `src/`) is a non-owning handle into the intern table whose
equality is by interned identity/content and which dereferences
(`unwrap_upgrade`) to the owned text.  Modelled as the interned text
itself. -/
structure InternedString where
  text : String
deriving DecidableEq

/-- `InternedString::to_owned` (line 166): dereference the handle to
the owned text. -/
def InternedString.to_owned (s : InternedString) : String := s.text

/-- Modelled from the spec: `Chunk` (defined in `chunk.rs`, not under
`src/`) is an opaque bytecode+constants container whose `deep_eq`
compares full content.  Modelled as its content list. -/
structure Chunk where
  content : List Nat
deriving DecidableEq

/-- `Chunk::deep_eq`, modelled from the spec: full-content
comparison. -/
def Chunk.deep_eq (c1 c2 : Chunk) : Bool := c1.content == c2.content

/-- `Function` (value.rs lines 23-28): name, arity, bytecode chunk. -/
structure Function where
  name : InternedString
  arity : Nat
  chunk : Chunk
deriving DecidableEq

/-- `Upvalue` compile-time descriptor (value.rs lines 30-34). -/
structure Upvalue where
  index : Nat
  is_local : Bool
deriving DecidableEq

/-- Heap addresses (weak refs / shared cells collapse to indices into
an explicit heap). -/
abbrev Addr := Nat

/-- The `Value` enum (value.rs lines 11-20).
`closure fi ups` models `Closure(GcWeak<Function>, RcRc<Vec<GcWeakMut<Value>>>)`:
`fi` indexes the function store, `ups` is the captured-reference
address list (the `RcRc` cell around the vector is collapsed: nothing
in this file mutates it).  `upvaluePtr a` models
`UpvaluePtr(GcWeakMut<Value>)` and `openUpvalue a` models
`OpenUpvalue(RcRc<Value>)`, both as heap addresses. -/
inductive Value where
  | number : F64 → Value
  | bool : Bool → Value
  | nil : Value
  | string : InternedString → Value
  | closure : Nat → List Addr → Value
  | upvaluePtr : Addr → Value
  | openUpvalue : Addr → Value
deriving DecidableEq

/-- `Function::stringify` (line 37): `format!("<fn {}>", name)`. -/
def Function.stringify (f : Function) : String :=
  "<fn " ++ f.name.to_owned ++ ">"

/-- `DeepEq for Function` (lines 40-46): names, arities and chunk
contents all compared. -/
def Function.deep_eq (f g : Function) : Bool :=
  f.name.to_owned == g.name.to_owned && f.arity == g.arity && f.chunk.deep_eq g.chunk

/-- Derived `Debug` formatting of `Value` (used by the coercion error
messages, lines 127/138/149/160).  The rendering of the external
handle types (`GcWeak`, `GcWeakMut`, `RcRc`, `InternedString`) is
abstracted to their model content. -/
def Value.debugFmt : Value → String
  | Value.number f => "Number(" ++ f.debugString ++ ")"
  | Value.bool b => "Bool(" ++ (if b then "true" else "false") ++ ")"
  | Value.nil => "Nil"
  | Value.string s => "String(" ++ s.text ++ ")"
  | Value.closure fi ups => "Closure(" ++ toString fi ++ ", " ++ toString ups ++ ")"
  | Value.upvaluePtr a => "UpvaluePtr(" ++ toString a ++ ")"
  | Value.openUpvalue a => "OpenUpvalue(" ++ toString a ++ ")"

/-- `PartialEq for Value` (lines 48-58): only same-variant
scalar/string pairs compare by content; everything else is `false`. -/
def Value.eq : Value → Value → Bool
  | Value.number n1, Value.number n2 => F64.beq n1 n2
  | Value.bool b1, Value.bool b2 => b1 == b2
  | Value.nil, Value.nil => true
  | Value.string s1, Value.string s2 => s1 == s2
  | _, _ => false

/-- `Value::is_string` (lines 61-66). -/
def Value.is_string : Value → Bool
  | Value.string _ => true
  | _ => false

/-- `Value::is_function` (lines 67-72): matches `Closure(..)`. -/
def Value.is_function : Value → Bool
  | Value.closure _ _ => true
  | _ => false

/-- `Value::is_falsey` (lines 88-94). -/
def Value.is_falsey : Value → Bool
  | Value.nil => true
  | Value.bool false => true
  | _ => false

/-- `Value::is_truthy` (lines 85-87). -/
def Value.is_truthy (v : Value) : Bool := !v.is_falsey

/-- `Value::is_upvalue_ptr` (lines 95-100). -/
def Value.is_upvalue_ptr : Value → Bool
  | Value.upvaluePtr _ => true
  | _ => false

/-- `Value::stringify` (lines 74-84), fuel-indexed over the function
store `fs` and heap `h`; `none` models a panic (dead weak reference)
or non-termination (fuel exhausted). -/
def Value.stringify : Nat → List Function → List Value → Value → Option String
  | 0, _, _, _ => none
  | _ + 1, _, _, Value.number f => some f.displayString
  | _ + 1, _, _, Value.bool b => some (if b then "true" else "false")
  | _ + 1, _, _, Value.nil => some "nil"
  | _ + 1, _, _, Value.string s => some s.to_owned
  | _ + 1, fs, _, Value.closure fi _ => (fs[fi]?).map Function.stringify
  | fuel + 1, fs, h, Value.upvaluePtr a => (h[a]?).bind (Value.stringify fuel fs h)
  | fuel + 1, fs, h, Value.openUpvalue a => (h[a]?).bind (Value.stringify fuel fs h)

/-- `Value::upvalue_ptr` (lines 101-104): upgrade the referent and
assert it is not itself a `UpvaluePtr`; `none` models the panic
(dead referent or failed assertion). -/
def Value.upvalue_ptr (h : List Value) (a : Addr) : Option Value :=
  match h[a]? with
  | none => none
  | some v => if v.is_upvalue_ptr then none else some (Value.upvaluePtr a)

/-- `Value::update_number` (lines 105-117), fuel-indexed: on `Number`
replace self and succeed; on `UpvaluePtr` upgrade and recurse into the
referent, writing the updated referent back to its cell; on every
other variant return `false` with nothing changed.  Returns
`(succeeded, updated self, updated heap)`; `none` models a panic or
fuel exhaustion. -/
def Value.update_number : Nat → List Value → Value → F64 → Option (Bool × Value × List Value)
  | 0, _, _, _ => none
  | _ + 1, h, Value.number _, x => some (true, Value.number x, h)
  | fuel + 1, h, Value.upvaluePtr a, x =>
    match h[a]? with
    | none => none
    | some v =>
      match Value.update_number fuel h v x with
      | none => none
      | some (b, w, h2) => some (b, Value.upvaluePtr a, h2.set a w)
  | _ + 1, h, v, _ => some (false, v, h)

/-- `TryFrom<&Value> for f64` (lines 120-130), fuel-indexed: `Number`
succeeds, `UpvaluePtr` upgrades and recurses, everything else is a
recoverable error naming the expected variant and the found value. -/
def f64TryFrom : Nat → List Value → Value → Option (Except String F64)
  | 0, _, _ => none
  | _ + 1, _, Value.number f => some (Except.ok f)
  | fuel + 1, h, Value.upvaluePtr a =>
    match h[a]? with
    | none => none
    | some v => f64TryFrom fuel h v
  | _ + 1, _, v => some (Except.error ("Expected Value::Number, but found " ++ v.debugFmt))

/-- `TryFrom<&Value> for &bool` and `TryFrom<&mut Value> for &mut bool`
(lines 132-152, identical logic): only the exact `Bool` variant
succeeds; no tunnelling through indirection. -/
def boolTryFrom : Value → Except String Bool
  | Value.bool b => Except.ok b
  | v => Except.error ("Expected Value::Bool, but found " ++ v.debugFmt)

/-- `TryFrom<&Value> for InternedString` (lines 154-163): only the
exact `String` variant succeeds; no tunnelling through indirection. -/
def internedStringTryFrom : Value → Except String InternedString
  | Value.string s => Except.ok s
  | v => Except.error ("Expected Value::String, but found " ++ v.debugFmt)

/-- Helper tag predicate (not in the source): `Number` tag. -/
def Value.isNumberTag : Value → Bool
  | Value.number _ => true
  | _ => false

/-- Helper tag predicate (not in the source): `Bool` tag. -/
def Value.isBoolTag : Value → Bool
  | Value.bool _ => true
  | _ => false

/-- Helper tag predicate (not in the source): reference-like variants
(`Closure`, `UpvaluePtr`, `OpenUpvalue`). -/
def Value.isRefLike : Value → Bool
  | Value.closure _ _ => true
  | Value.upvaluePtr _ => true
  | Value.openUpvalue _ => true
  | _ => false

/-- Helper (not in the source): indirection variants, the ones whose
`stringify` recurses through the heap. -/
def Value.isIndirect : Value → Bool
  | Value.upvaluePtr _ => true
  | Value.openUpvalue _ => true
  | _ => false

/-- Helper (not in the source): the heap cell an indirection variant
dereferences to. -/
def Value.referent (h : List Value) : Value → Option Value
  | Value.upvaluePtr a => h[a]?
  | Value.openUpvalue a => h[a]?
  | _ => none

/-- Helper (not in the source): a value's weak function reference, if
any, is live in the function store. -/
def Value.funLive (fs : List Function) : Value → Prop
  | Value.closure fi _ => ∃ fn, fs[fi]? = some fn
  | _ => True

/-- A chain of `n ≥ 1` nested `UpvaluePtr`s through heap `h`,
terminating at address `t` which holds `Number f`. -/
inductive NumberChain (h : List Value) : Value → Nat → Addr → F64 → Prop where
  | one : ∀ (t : Addr) (f : F64), h[t]? = some (Value.number f) →
      NumberChain h (Value.upvaluePtr t) 1 t f
  | cons : ∀ (a : Addr) (n : Nat) (t : Addr) (f : F64) (v : Value),
      h[a]? = some v → NumberChain h v n t f →
      NumberChain h (Value.upvaluePtr a) (n + 1) t f

/-- The spec's no-nested-`UpvaluePtr` invariant as a heap predicate:
no `UpvaluePtr` stored in the heap has a live referent that is itself
a `UpvaluePtr`. -/
def noNestedUpvaluePtr (h : List Value) : Bool :=
  h.all fun v =>
    match v with
    | Value.upvaluePtr a =>
      match h[a]? with
      | some w => !w.is_upvalue_ptr
      | none => true
    | _ => true

/-- `stringify` diverges on `v`: no amount of fuel produces a
result. -/
def stringifyDiverges (fs : List Function) (h : List Value) (v : Value) : Prop :=
  ∀ fuel, Value.stringify fuel fs h v = none

/-- Writing back the value a cell already holds leaves the heap
unchanged. -/
theorem list_set_self {α : Type} : ∀ (l : List α) (i : Nat) (x : α), l[i]? = some x → l.set i x = l
  | [], i, x, h => by simp at h
  | hd :: tl, 0, x, h => by simp_all
  | hd :: tl, i + 1, x, h => by
    simp only [List.getElem?_cons_succ] at h
    simp [List.set, list_set_self tl i x h]

/-- Every value in a `NumberChain` is a `UpvaluePtr`. -/
theorem NumberChain.isPtr {h : List Value} {v : Value} {n : Nat} {t : Addr} {f : F64}
    (hc : NumberChain h v n t f) : ∃ a, v = Value.upvaluePtr a := by
  cases hc with
  | one t f _ => exact ⟨t, rfl⟩
  | cons a n t f w _ _ => exact ⟨a, rfl⟩

/-- The terminal cell of a `NumberChain` holds the chain's number. -/
theorem NumberChain.terminal {h : List Value} {v : Value} {n : Nat} {t : Addr} {f : F64}
    (hc : NumberChain h v n t f) : h[t]? = some (Value.number f) := by
  induction hc with
  | one t f hget => exact hget
  | cons a n t f w hget hc ih => exact ih

/-- C5: for every `Value` `v`, `is_truthy v = !is_falsey v`, and
`is_falsey v` holds exactly when `v` is `Nil` or `Bool false`; every
other variant — `Number 0` and the empty interned string included —
is truthy. -/
theorem c5_truthy_falsey (v : Value) :
    (v.is_truthy = !v.is_falsey) ∧
    (v.is_falsey = true ↔ v = Value.nil ∨ v = Value.bool false) ∧
    (Value.number (F64.fin 0)).is_truthy = true ∧
    (Value.string ⟨""⟩).is_truthy = true := by
  refine ⟨rfl, ?_, rfl, rfl⟩
  cases v with
  | bool b => cases b <;> simp [Value.is_falsey]
  | _ => simp [Value.is_falsey]

/-- C10: `is_function v` is true exactly when `v` is a `Closure`
value; it does not tunnel through `UpvaluePtr` or `OpenUpvalue`, and
no `Value` variant wraps a bare `Function`. -/
theorem c10_is_function (v : Value) :
    (v.is_function = true ↔ ∃ fi ups, v = Value.closure fi ups) ∧
    (∀ a : Addr, (Value.upvaluePtr a).is_function = false) ∧
    (∀ a : Addr, (Value.openUpvalue a).is_function = false) := by
  refine ⟨?_, fun _ => rfl, fun _ => rfl⟩
  cases v <;> simp [Value.is_function]

/-- C9: the `Value` equality operator is not reflexive:
`Number NaN` is unequal to itself (IEEE-754 NaN semantics), and every
`Closure`, `UpvaluePtr` or `OpenUpvalue` value is unequal to
itself. -/
theorem c9_eq_not_reflexive :
    Value.eq (Value.number F64.nan) (Value.number F64.nan) = false ∧
    (∀ (fi : Nat) (ups : List Addr), Value.eq (Value.closure fi ups) (Value.closure fi ups) = false) ∧
    (∀ a : Addr, Value.eq (Value.upvaluePtr a) (Value.upvaluePtr a) = false) ∧
    (∀ a : Addr, Value.eq (Value.openUpvalue a) (Value.openUpvalue a) = false) ∧
    ¬ (∀ v : Value, Value.eq v v = true) := by
  refine ⟨rfl, fun _ _ => rfl, fun _ => rfl, fun _ => rfl, fun hall => ?_⟩
  have := hall (Value.number F64.nan)
  simp [Value.eq, F64.beq] at this

/-- C8: `Function.deep_eq` returns true exactly when the names, the
arities, and the full chunk contents of the two functions are all
equal. -/
theorem c8_function_deep_eq (f g : Function) :
    Function.deep_eq f g = true ↔
      (f.name.text = g.name.text ∧ f.arity = g.arity ∧ f.chunk.content = g.chunk.content) := by
  cases f with
  | mk nf af cf =>
    cases g with
    | mk ng ag cg =>
      cases nf
      cases ng
      cases cf
      cases cg
      simp [Function.deep_eq, Chunk.deep_eq, InternedString.to_owned, and_assoc]

/-- C4: the `Value` equality operator returns true only for pairs of
the same scalar/string variant with equal content (numbers by
IEEE-754 equality, strings by interned content), and returns false
for every pair involving `Closure`, `UpvaluePtr` or `OpenUpvalue`,
even when both sides are the very same reference. -/
theorem c4_value_eq (v w : Value) :
    (Value.eq v w = true ↔
      ((∃ a b, v = Value.number a ∧ w = Value.number b ∧ F64.beq a b = true) ∨
       (∃ a b, v = Value.bool a ∧ w = Value.bool b ∧ a = b) ∨
       (v = Value.nil ∧ w = Value.nil) ∨
       (∃ s t, v = Value.string s ∧ w = Value.string t ∧ s.text = t.text))) ∧
    ((v.isRefLike = true ∨ w.isRefLike = true) → Value.eq v w = false) := by
  constructor
  · cases v <;> cases w <;> simp [Value.eq]
    all_goals try (rename_i s t; cases s; cases t; simp)
  · intro href
    cases v <;> cases w <;> simp_all [Value.eq, Value.isRefLike]

/-- C2: `upvalue_ptr` on a live referent fails fast (panic, modelled
`none`) exactly when the referent is itself a `UpvaluePtr`; otherwise
it returns `UpvaluePtr` of the given reference, so every successful
construction satisfies the no-nested-`UpvaluePtr` invariant. -/
theorem c2_upvalue_ptr_ctor (h : List Value) (a : Addr) (v : Value)
    (hget : h[a]? = some v) :
    (Value.upvalue_ptr h a = none ↔ v.is_upvalue_ptr = true) ∧
    (v.is_upvalue_ptr = false → Value.upvalue_ptr h a = some (Value.upvaluePtr a)) ∧
    (∀ r, Value.upvalue_ptr h a = some r →
      r = Value.upvaluePtr a ∧ v.is_upvalue_ptr = false) := by
  unfold Value.upvalue_ptr
  rw [hget]
  cases hb : v.is_upvalue_ptr <;> simp_all

/-- Witness for C2 at a concrete heap: the referent `Nil` is not a
`UpvaluePtr`, so construction succeeds. -/
theorem c2_upvalue_ptr_ctor_witness :
    Value.upvalue_ptr [Value.nil] 0 = some (Value.upvaluePtr 0) :=
  (c2_upvalue_ptr_ctor [Value.nil] 0 Value.nil rfl).2.1 rfl

/-- Unfolding step of `update_number` on a `UpvaluePtr` with a live
referent. -/
theorem update_number_ptr_step (fuel : Nat) (h : List Value) (a : Addr) (v : Value)
    (x : F64) (hget : h[a]? = some v) :
    Value.update_number (fuel + 1) h (Value.upvaluePtr a) x =
      match Value.update_number fuel h v x with
      | none => none
      | some (b, w, h2) => some (b, Value.upvaluePtr a, h2.set a w) := by
  simp [Value.update_number, hget]

/-- `update_number` with fuel `n + 1` on a `NumberChain` of length `n`
succeeds, leaves the chain value itself unchanged, and overwrites the
terminal cell with the new number. -/
theorem update_number_chain {h : List Value} {v : Value} {n : Nat} {t : Addr} {f : F64}
    (x : F64) (hc : NumberChain h v n t f) :
    Value.update_number (n + 1) h v x = some (true, v, h.set t (Value.number x)) := by
  induction hc with
  | one t f hget =>
    simp [Value.update_number, hget]
  | cons a n t f w hget hc ih =>
    have hterm : h[t]? = some (Value.number f) := hc.terminal
    obtain ⟨b, rfl⟩ := hc.isPtr
    have hne : t ≠ a := by
      intro e
      rw [← e, hterm] at hget
      cases hget
    have hget2 : (h.set t (Value.number x))[a]? = some (Value.upvaluePtr b) := by
      rw [List.getElem?_set_ne hne, hget]
    have hsetid : (h.set t (Value.number x)).set a (Value.upvaluePtr b) = h.set t (Value.number x) :=
      list_set_self _ a _ hget2
    rw [update_number_ptr_step (n + 1) h a (Value.upvaluePtr b) x hget, ih]
    simp [hsetid]

/-- C1: `update_number` replaces a `Number` with the new number and
succeeds; through a chain of `n` nested `UpvaluePtr`s ending at a
`Number` cell it succeeds and the terminal cell holds the new number
afterwards; on `Bool`, `Nil`, `String`, `Closure` and `OpenUpvalue`
it returns `false` and changes nothing. -/
theorem c1_update_number (h : List Value) (x f : F64) (v : Value) (n : Nat) (t : Addr)
    (s : InternedString) (b : Bool) (fi : Nat) (ups : List Addr) (a : Addr) :
    (Value.update_number 1 h (Value.number f) x = some (true, Value.number x, h)) ∧
    (NumberChain h v n t f →
      Value.update_number (n + 1) h v x = some (true, v, h.set t (Value.number x)) ∧
      (h.set t (Value.number x))[t]? = some (Value.number x)) ∧
    (∀ fuel, Value.update_number (fuel + 1) h (Value.bool b) x = some (false, Value.bool b, h)) ∧
    (∀ fuel, Value.update_number (fuel + 1) h Value.nil x = some (false, Value.nil, h)) ∧
    (∀ fuel, Value.update_number (fuel + 1) h (Value.string s) x = some (false, Value.string s, h)) ∧
    (∀ fuel, Value.update_number (fuel + 1) h (Value.closure fi ups) x
      = some (false, Value.closure fi ups, h)) ∧
    (∀ fuel, Value.update_number (fuel + 1) h (Value.openUpvalue a) x
      = some (false, Value.openUpvalue a, h)) := by
  refine ⟨rfl, fun hc => ⟨update_number_chain x hc, ?_⟩,
    fun _ => rfl, fun _ => rfl, fun _ => rfl, fun _ => rfl, fun _ => rfl⟩
  have hlt : t < h.length := (List.getElem?_eq_some.mp hc.terminal).1
  exact List.getElem?_set_eq_of_lt _ hlt

/-- Witness for C1 at a concrete two-link chain
`UpvaluePtr 1 ↦ UpvaluePtr 0 ↦ Number 1`: updating through the chain
with `7` rewrites the terminal cell. -/
theorem c1_update_number_witness :
    Value.update_number 3 [Value.number (F64.fin 1), Value.upvaluePtr 0]
        (Value.upvaluePtr 1) (F64.fin 7)
      = some (true, Value.upvaluePtr 1, [Value.number (F64.fin 7), Value.upvaluePtr 0]) := by
  have hc : NumberChain [Value.number (F64.fin 1), Value.upvaluePtr 0]
      (Value.upvaluePtr 1) 2 0 (F64.fin 1) :=
    NumberChain.cons 1 1 0 (F64.fin 1) (Value.upvaluePtr 0) rfl
      (NumberChain.one 0 (F64.fin 1) rfl)
  exact ((c1_update_number [Value.number (F64.fin 1), Value.upvaluePtr 0] (F64.fin 7)
    (F64.fin 1) (Value.upvaluePtr 1) 2 0 ⟨""⟩ false 0 [] 0).2.1 hc).1

/-- `f64` coercion with fuel `n + 1` succeeds on a `NumberChain` of
length `n`, returning the terminal number. -/
theorem f64TryFrom_ptr_step (fuel : Nat) (h : List Value) (a : Addr) (v : Value)
    (hget : h[a]? = some v) :
    f64TryFrom (fuel + 1) h (Value.upvaluePtr a) = f64TryFrom fuel h v := by
  simp [f64TryFrom, hget]

theorem f64TryFrom_chain {h : List Value} {v : Value} {n : Nat} {t : Addr} {f : F64}
    (hc : NumberChain h v n t f) :
    f64TryFrom (n + 1) h v = some (Except.ok f) := by
  induction hc with
  | one t f hget =>
    rw [f64TryFrom_ptr_step 1 h t (Value.number f) hget]
    rfl
  | cons a n t f w hget hc ih =>
    rw [f64TryFrom_ptr_step (n + 1) h a w hget]
    exact ih

/-- C3: coercion to `f64` tunnels through `UpvaluePtr` chains and
succeeds on any `Number` reached that way, while coercion to `bool`
and to `InternedString` match only the exact variant — in particular
a `Bool` behind a `UpvaluePtr` fails bool-coercion — and every
failure message names the expected variant and the found value. -/
theorem c3_coercions (h : List Value) (v w : Value) (n : Nat) (t : Addr) (f : F64)
    (b : Bool) (s : InternedString) (a : Addr) :
    (f64TryFrom 1 h (Value.number f) = some (Except.ok f)) ∧
    (NumberChain h v n t f → f64TryFrom (n + 1) h v = some (Except.ok f)) ∧
    (∀ fuel, w.isNumberTag = false → w.is_upvalue_ptr = false →
      f64TryFrom (fuel + 1) h w
        = some (Except.error ("Expected Value::Number, but found " ++ w.debugFmt))) ∧
    (boolTryFrom (Value.bool b) = Except.ok b) ∧
    (w.isBoolTag = false →
      boolTryFrom w = Except.error ("Expected Value::Bool, but found " ++ w.debugFmt)) ∧
    (boolTryFrom (Value.upvaluePtr a)
      = Except.error ("Expected Value::Bool, but found " ++ (Value.upvaluePtr a).debugFmt)) ∧
    (internedStringTryFrom (Value.string s) = Except.ok s) ∧
    (w.is_string = false →
      internedStringTryFrom w
        = Except.error ("Expected Value::String, but found " ++ w.debugFmt)) := by
  refine ⟨rfl, f64TryFrom_chain, ?_, rfl, ?_, rfl, rfl, ?_⟩
  · intro fuel hnum hptr
    cases w <;> simp_all [Value.isNumberTag, Value.is_upvalue_ptr] <;> rfl
  · intro hb
    cases w <;> simp_all [Value.isBoolTag] <;> rfl
  · intro hs
    cases w <;> simp_all [Value.is_string] <;> rfl

/-- Witness for C3 at concrete inputs: coercion to `f64` through a
one-link chain succeeds; bool-coercion of a `Bool` behind a
`UpvaluePtr` fails with the descriptive message. -/
theorem c3_coercions_witness :
    f64TryFrom 2 [Value.number (F64.fin 5)] (Value.upvaluePtr 0) = some (Except.ok (F64.fin 5)) ∧
    boolTryFrom (Value.upvaluePtr 0)
      = Except.error ("Expected Value::Bool, but found " ++ (Value.upvaluePtr 0).debugFmt) := by
  have hc : NumberChain [Value.number (F64.fin 5)] (Value.upvaluePtr 0) 1 0 (F64.fin 5) :=
    NumberChain.one 0 (F64.fin 5) rfl
  exact ⟨(c3_coercions [Value.number (F64.fin 5)] (Value.upvaluePtr 0) Value.nil 1 0
    (F64.fin 5) false ⟨""⟩ 0).2.1 hc,
    (c3_coercions [Value.number (F64.fin 5)] Value.nil (Value.upvaluePtr 0) 1 0
    (F64.fin 5) false ⟨""⟩ 0).2.2.2.2.1 rfl⟩

/-- C6: `stringify` per variant: the default decimal text for
`Number` (`"3"` for `3.0`), `"true"`/`"false"` for `Bool`, `"nil"`
for `Nil`, the interned text for `String`,
`"<fn " ++ name ++ ">"` for `Closure`, and for `UpvaluePtr` and
`OpenUpvalue` the recursive stringification of the upgraded referent
resp. the cell's current content. -/
theorem c6_stringify (fs : List Function) (h : List Value) (fuel : Nat) (f : F64)
    (b : Bool) (s : InternedString) (fi : Nat) (fn : Function) (ups : List Addr)
    (a : Addr) (v : Value) :
    (Value.stringify (fuel + 1) fs h (Value.number f) = some f.displayString) ∧
    (Value.stringify 1 fs h (Value.number (F64.fin 3)) = some "3") ∧
    (Value.stringify (fuel + 1) fs h (Value.bool b) = some (if b then "true" else "false")) ∧
    (Value.stringify (fuel + 1) fs h Value.nil = some "nil") ∧
    (Value.stringify (fuel + 1) fs h (Value.string s) = some s.to_owned) ∧
    (fs[fi]? = some fn →
      Value.stringify (fuel + 1) fs h (Value.closure fi ups)
        = some ("<fn " ++ fn.name.to_owned ++ ">")) ∧
    (h[a]? = some v →
      Value.stringify (fuel + 1) fs h (Value.upvaluePtr a) = Value.stringify fuel fs h v) ∧
    (h[a]? = some v →
      Value.stringify (fuel + 1) fs h (Value.openUpvalue a) = Value.stringify fuel fs h v) := by
  refine ⟨rfl, ?_, rfl, rfl, rfl, ?_, ?_, ?_⟩
  · show some (F64.displayString (F64.fin 3)) = some "3"
    rw [show F64.displayString (F64.fin 3) = "3" from by decide]
  · intro hfn
    simp [Value.stringify, hfn, Function.stringify]
  · intro hget
    simp [Value.stringify, hget]
  · intro hget
    simp [Value.stringify, hget]

/-- Witness for C6 at concrete inputs: a closure stringifies to
`<fn f>`, and a `UpvaluePtr` stringifies its referent. -/
theorem c6_stringify_witness :
    Value.stringify 1 [Function.mk ⟨"f"⟩ 1 ⟨[]⟩] [Value.number (F64.fin 2)]
        (Value.closure 0 []) = some "<fn f>" ∧
    Value.stringify 2 [] [Value.number (F64.fin 2)] (Value.upvaluePtr 0)
      = Value.stringify 1 [] [Value.number (F64.fin 2)] (Value.number (F64.fin 2)) := by
  constructor
  · exact (c6_stringify [Function.mk ⟨"f"⟩ 1 ⟨[]⟩] [Value.number (F64.fin 2)] 0 (F64.fin 2)
      false ⟨""⟩ 0 (Function.mk ⟨"f"⟩ 1 ⟨[]⟩) [] 0 Value.nil).2.2.2.2.2.1 rfl
  · exact (c6_stringify [] [Value.number (F64.fin 2)] 1 (F64.fin 2)
      false ⟨""⟩ 0 (Function.mk ⟨"f"⟩ 1 ⟨[]⟩) [] 0 (Value.number (F64.fin 2))).2.2.2.2.2.2.1 rfl

/-- A non-indirection value with a live function reference stringifies
with one unit of fuel. -/
theorem stringify_flat {fs : List Function} {h : List Value} {v : Value} (fuel : Nat)
    (hflat : v.isIndirect = false) (hlive : v.funLive fs) :
    ∃ s, Value.stringify (fuel + 1) fs h v = some s := by
  cases v with
  | closure fi ups =>
    obtain ⟨fn, hfn⟩ := hlive
    exact ⟨Function.stringify fn, by simp [Value.stringify, hfn]⟩
  | upvaluePtr a => simp [Value.isIndirect] at hflat
  | openUpvalue a => simp [Value.isIndirect] at hflat
  | _ => exact ⟨_, rfl⟩

/-- An indirection value with a live referent stringifies by
recursing into the referent. -/
theorem stringify_step {fs : List Function} {h : List Value} {v w : Value} (fuel : Nat)
    (href : v.referent h = some w) :
    Value.stringify (fuel + 1) fs h v = Value.stringify fuel fs h w := by
  cases v <;> simp_all [Value.referent, Value.stringify]

/-- Only indirection variants have a referent. -/
theorem referent_isIndirect {h : List Value} {v w : Value}
    (href : v.referent h = some w) : v.isIndirect = true := by
  cases v <;> simp_all [Value.referent, Value.isIndirect]

/-- C7 (amended): `stringify` terminates — with at most two hops of
recursion, fuel 3 — on every value whose indirection resolves to a
non-indirection variant (with live function reference) within two
referent steps.  The no-nested-`UpvaluePtr` invariant alone does not
ensure this: it leaves `OpenUpvalue` contents unconstrained. -/
theorem c7_stringify_bounded (fs : List Function) (h : List Value) (v : Value) :
    ((v.isIndirect = false ∧ v.funLive fs) ∨
     (∃ w, v.referent h = some w ∧
       ((w.isIndirect = false ∧ w.funLive fs) ∨
        (∃ u, w.referent h = some u ∧ u.isIndirect = false ∧ u.funLive fs)))) →
    ∃ s, Value.stringify 3 fs h v = some s := by
  intro hcases
  rcases hcases with ⟨hflat, hlive⟩ | ⟨w, href, hw⟩
  · exact stringify_flat 2 hflat hlive
  · rw [show (3 : Nat) = 2 + 1 from rfl, stringify_step 2 href]
    rcases hw with ⟨hflat, hlive⟩ | ⟨u, href2, hflat, hlive⟩
    · exact stringify_flat 1 hflat hlive
    · rw [show (2 : Nat) = 1 + 1 from rfl, stringify_step 1 href2]
      exact stringify_flat 0 hflat hlive

/-- Witness for C7 (amended) at a concrete heap:
`UpvaluePtr 1 ↦ OpenUpvalue 0 ↦ Number 2` stringifies within fuel
3. -/
theorem c7_stringify_bounded_witness :
    ∃ s, Value.stringify 3 [] [Value.number (F64.fin 2), Value.openUpvalue 0]
      (Value.upvaluePtr 1) = some s :=
  c7_stringify_bounded [] [Value.number (F64.fin 2), Value.openUpvalue 0] (Value.upvaluePtr 1)
    (Or.inr ⟨Value.openUpvalue 0, rfl,
      Or.inr ⟨Value.number (F64.fin 2), rfl, rfl, trivial⟩⟩)

/-- A heap consisting of one `OpenUpvalue` cell that contains itself:
it satisfies the no-nested-`UpvaluePtr` invariant (there is no
`UpvaluePtr` anywhere), yet `stringify` on it never terminates. -/
def cyclicOpenHeap : List Value := [Value.openUpvalue 0]

/-- C7 counterexample: the claim as stated fails — the
no-nested-`UpvaluePtr` invariant holds of `cyclicOpenHeap`, yet
`stringify` of its self-referential `OpenUpvalue` diverges (returns
no result at any fuel), because the invariant does not constrain
`OpenUpvalue` contents. -/
theorem c7_counterexample :
    noNestedUpvaluePtr cyclicOpenHeap = true ∧
    stringifyDiverges [] cyclicOpenHeap (Value.openUpvalue 0) := by
  refine ⟨rfl, fun fuel => ?_⟩
  induction fuel with
  | zero => rfl
  | succ n ih =>
    show (cyclicOpenHeap[0]?).bind (Value.stringify n [] cyclicOpenHeap) = none
    rw [show cyclicOpenHeap[0]? = some (Value.openUpvalue 0) from rfl]
    exact ih

/-- Witness for C4 at a concrete input: a `UpvaluePtr` compared with
the very same reference is still unequal. -/
theorem c4_value_eq_witness :
    Value.eq (Value.upvaluePtr 0) (Value.upvaluePtr 0) = false :=
  (c4_value_eq (Value.upvaluePtr 0) (Value.upvaluePtr 0)).2 (Or.inl rfl)
